import Mathlib

/-!
Verification of the attendance-aggregation and payroll-derivation engine of the
sss-solutions HR/payroll application.

The TypeScript source is shallowly embedded as follows.

* JavaScript numbers are modelled as exact rationals (`ℚ`); the arithmetic the
  program performs on the values of interest (addition, subtraction,
  multiplication by decimal constants, `Math.round`, `min`, comparisons) is
  exact at the magnitudes involved, so `ℚ` is faithful to the float semantics.
* `Math.round x` is `⌊x + 1/2⌋` (round half toward positive infinity) per the
  ECMAScript specification.
* Nullable numeric database columns are `Option ℚ`; the JS coercion
  `Number(x) || 0` becomes `Option.getD · 0` (a numeric JSON/database value is
  modelled as an actual number, so the `NaN`-to-`0` and string-to-number parts
  of the coercion have no separate representation).
* The result of `JSON.parse` on the `notes` column is modelled by its shape:
  parse failure, JSON `null`, a non-object scalar, or an object carrying the
  optional numeric fields the aggregators read.  This is exactly the
  information the source branches on.
* `new Date(year, monthIndex, day)` and the local getters
  `getFullYear`/`getMonth`/`getDate` are modelled as proleptic-Gregorian
  calendar arithmetic over an epoch expressed in minutes, parameterised by a
  fixed process-timezone offset `tz` (in minutes), so that timezone
  (in)dependence is provable rather than assumed.
* Strings serialised into CSV files are modelled as `List Char`; `Array.join`
  becomes an explicit join, and the CSV re-parser (which does not exist in the
  repository and is described only by the spec's output format) is modelled
  from the spec.
-/

/-- `Math.round` in JavaScript: for every finite argument it returns
`⌊x + 1/2⌋`, i.e. it rounds halves toward positive infinity. -/
def jsRound (q : ℚ) : ℤ := ⌊q + 1/2⌋

/-- The coercion `Number(x) || 0` applied to a nullable numeric value:
`null`/`undefined` (and, in the hooks, an unparsable value) give `0`,
a number gives itself (`0` is falsy, so `|| 0` fixes nothing further). -/
def toNum (x : Option ℚ) : ℚ := x.getD 0

/-- Modelled from the spec: the spec's phrase "round-half-away-from-zero"
(§7), used to compare against the rounding the code actually performs.
For `q ≥ 0` this is `⌊q + 1/2⌋`; for `q < 0` it is the mirror image. -/
def roundHalfAwayFromZero (q : ℚ) : ℤ := if 0 ≤ q then ⌊q + 1/2⌋ else -⌊-q + 1/2⌋

/-- Day count from civil date (proleptic Gregorian calendar, floor-division
convention); day 0 is 1970-01-01.  `m` is 1-based. -/
def daysFromCivil (y m d : ℤ) : ℤ :=
  let y' := if m ≤ 2 then y - 1 else y
  let era := y'.ediv 400
  let yoe := y' - era * 400
  let mp := if 2 < m then m - 3 else m + 9
  let doy := (153 * mp + 2).ediv 5 + d - 1
  let doe := yoe * 365 + yoe.ediv 4 - yoe.ediv 100 + doy
  era * 146097 + doe - 719468

/-- Civil date (year, 1-based month, day) from a day count; inverse of
`daysFromCivil` on valid dates. -/
def civilFromDays (z : ℤ) : ℤ × ℤ × ℤ :=
  let z' := z + 719468
  let era := z'.ediv 146097
  let doe := z' - era * 146097
  let yoe := (doe - doe.ediv 1460 + doe.ediv 36524 - doe.ediv 146096).ediv 365
  let y := yoe + era * 400
  let doy := doe - (365 * yoe + yoe.ediv 4 - yoe.ediv 100)
  let mp := (5 * doy + 2).ediv 153
  let d := doy - (153 * mp + 2).ediv 5 + 1
  let m := if mp < 10 then mp + 3 else mp - 9
  (if m ≤ 2 then y + 1 else y, m, d)

/-- The local civil date `new Date(year, monthIndex, day)` denotes, as a day
number: the out-of-range `monthIndex`/`day` arguments roll over exactly as in
ECMAScript (months via floored division, `day = 0` meaning the last day of
the previous month), and years 0–99 map to 1900–1999. -/
def jsDateLocalDayNum (year monthIndex day : ℤ) : ℤ :=
  let year' := if 0 ≤ year ∧ year ≤ 99 then year + 1900 else year
  let total := 12 * year' + monthIndex
  let ny := total.ediv 12
  let nm := total.emod 12
  daysFromCivil ny (nm + 1) 1 + (day - 1)

/-- The epoch instant (in minutes) of `new Date(year, monthIndex, day)` under
timezone offset `tz`: local midnight of the rolled-over local date. -/
def jsDateEpochMin (tz year monthIndex day : ℤ) : ℤ :=
  1440 * jsDateLocalDayNum year monthIndex day - tz

/-- The local civil day number an epoch instant (in minutes) falls on, for a
process timezone at fixed offset `tz` minutes. -/
def epochLocalDays (tz epochMin : ℤ) : ℤ := (epochMin + tz).ediv 1440

/-- `Date.prototype.getFullYear` under timezone offset `tz`. -/
def jsGetFullYear (tz epochMin : ℤ) : ℤ := (civilFromDays (epochLocalDays tz epochMin)).1

/-- `Date.prototype.getMonth` (0-based) under timezone offset `tz`. -/
def jsGetMonth (tz epochMin : ℤ) : ℤ := (civilFromDays (epochLocalDays tz epochMin)).2.1 - 1

/-- `Date.prototype.getDate` under timezone offset `tz`. -/
def jsGetDate (tz epochMin : ℤ) : ℤ := (civilFromDays (epochLocalDays tz epochMin)).2.2

/-- `String(n).padStart(2, '0')` as used on month and day numbers. -/
def pad2 (n : ℤ) : String := let s := toString n; if s.length < 2 then "0" ++ s else s

/-- The `formatLocalDate` helper shared verbatim by `useEmployeeAttendanceStats`,
`useAllEmployeesAttendanceStats` and `fetchAttendanceStats`: formats a `Date`
as `YYYY-MM-DD` from the local getters. -/
def formatLocalDate (tz epochMin : ℤ) : String :=
  toString (jsGetFullYear tz epochMin) ++ "-" ++ pad2 (jsGetMonth tz epochMin + 1) ++ "-"
    ++ pad2 (jsGetDate tz epochMin)

/-- Auxiliary state machine for splitting a character list at a separator. -/
def splitOnCharAux (c : Char) : List Char → List Char → List (List Char)
  | [], acc => [acc.reverse]
  | x :: xs, acc =>
    if x = c then acc.reverse :: splitOnCharAux c xs []
    else splitOnCharAux c xs (x :: acc)

/-- `String.prototype.split(sep)` for a one-character separator, over the
character-list model of strings. -/
def splitOnChar (c : Char) (s : List Char) : List (List Char) := splitOnCharAux c s []

/-- `Array.prototype.join(sep)` for a one-character separator, over the
character-list model of strings. -/
def joinChar (c : Char) : List (List Char) → List Char
  | [] => []
  | [x] => x
  | x :: xs => x ++ c :: joinChar c xs

/-- Numeric value of a decimal digit string. -/
def digitsVal (cs : List Char) : ℕ := cs.foldl (fun a c => 10 * a + (c.toNat - 48)) 0

/-- `parseInt(s, 10)` on the year/month components cut from a `YYYY-MM`
selector (exact for the all-digit strings the claims concern; an unparsable
component is defaulted rather than modelling `NaN`). -/
def parseIntD (cs : List Char) : ℤ :=
  if cs ≠ [] ∧ cs.all (fun c => c.isDigit) then Int.ofNat (digitsVal cs) else 0

/-- The month-boundary computation appearing identically in
`useEmployeeAttendanceStats`, `useAllEmployeesAttendanceStats` (lines 32–37 /
186–191 of useEmployeeAttendance.ts) and `fetchAttendanceStats` (lines 15–25
of attendanceStats.ts) for an explicitly selected month: split the selector on
`-`, `parseInt` the parts, and format `new Date(year, month-1, 1)` and
`new Date(year, month, 0)` with `formatLocalDate`. -/
def monthDateRange (tz : ℤ) (selectedMonth : String) : String × String :=
  let parts := splitOnChar '-' selectedMonth.data
  let year := parseIntD (parts.getD 0 [])
  let month := parseIntD (parts.getD 1 [])
  (formatLocalDate tz (jsDateEpochMin tz year (month - 1) 1),
   formatLocalDate tz (jsDateEpochMin tz year month 0))

/-- The `status` column of an attendance row.  The enum values the code
switches on are `present`, `absent` and `late`; `other` stands for any other
string (the `switch` statements have no `default`, so such rows fall
through). -/
inductive RecStatus
  | present
  | absent
  | late
  | other
deriving DecidableEq

/-- The numeric fields an aggregator reads off a JSON object parsed from
`notes`; `none` models an absent (`undefined`) property. -/
structure NotesFields where
  present_days : Option ℚ
  absent_days : Option ℚ
  late_days : Option ℚ
  ot_hours : Option ℚ
  food : Option ℚ
  uniform : Option ℚ
deriving DecidableEq

/-- Shape of a successfully parsed `notes` JSON value, carrying exactly what
the aggregators inspect: `jnull` is JSON `null` (`typeof` is `'object'` but
property access throws), `scalar` is a non-object value (number, string,
boolean — property access yields `undefined`), `obj` is an object or array
with its numeric properties. -/
inductive NotesJson
  | jnull
  | scalar
  | obj (fields : NotesFields)
deriving DecidableEq

/-- Outcome of `JSON.parse(record.notes)`: an exception, or a value. -/
inductive NotesParse
  | failure
  | ok (v : NotesJson)
deriving DecidableEq

/-- An attendance row as the aggregators see it.  Numeric columns are nullable
(`none` models SQL `NULL`/`undefined`); `notes = none` models a missing or
empty (falsy) notes string, otherwise the parse outcome of its contents;
check-in/check-out times are the hour-of-day values their `1970-01-01T…`
`Date` parses denote, `none` when the column is missing or empty. -/
structure AttendanceRecord where
  employee_id : String
  status : RecStatus
  present_days : Option ℚ
  absent_days : Option ℚ
  late_days : Option ℚ
  ot_hours : Option ℚ
  food : Option ℚ
  uniform : Option ℚ
  deduction : Option ℚ
  notes : Option NotesParse
  check_in_time : Option ℚ
  check_out_time : Option ℚ
deriving DecidableEq

/-- The `EmployeeAttendanceStats` accumulator of useEmployeeAttendance.ts. -/
structure EmployeeAttendanceStats where
  employee_id : String
  present_days : ℚ
  absent_days : ℚ
  late_days : ℚ
  ot_hours : ℚ
  total_days : ℚ
  food : ℚ
  uniform : ℚ
  deduction : ℚ
deriving DecidableEq

/-- The all-zero stats record both hooks start an employee with. -/
def emptyHookStats (id : String) : EmployeeAttendanceStats :=
  { employee_id := id, present_days := 0, absent_days := 0, late_days := 0, ot_hours := 0
    total_days := 0, food := 0, uniform := 0, deduction := 0 }

/-- PRIORITY 1 of both hooks: add the (coerced) direct column values of a
record to the running totals (lines 83–106 / 240–257). -/
def addDirectValues (stats : EmployeeAttendanceStats) (r : AttendanceRecord) :
    EmployeeAttendanceStats :=
  { stats with
    present_days := stats.present_days + toNum r.present_days
    absent_days := stats.absent_days + toNum r.absent_days
    late_days := stats.late_days + toNum r.late_days
    ot_hours := stats.ot_hours + toNum r.ot_hours
    food := stats.food + toNum r.food
    uniform := stats.uniform + toNum r.uniform
    deduction := stats.deduction + toNum r.deduction }

/-- PRIORITY 2 of both hooks: add the six numeric fields of a parsed notes
object (lines 117–129 / 266–278); note `deduction` is not among them. -/
def addNotesValues (stats : EmployeeAttendanceStats) (f : NotesFields) :
    EmployeeAttendanceStats :=
  { stats with
    present_days := stats.present_days + toNum f.present_days
    absent_days := stats.absent_days + toNum f.absent_days
    late_days := stats.late_days + toNum f.late_days
    ot_hours := stats.ot_hours + toNum f.ot_hours
    food := stats.food + toNum f.food
    uniform := stats.uniform + toNum f.uniform }

/-- PRIORITY 3 of both hooks: the `switch (record.status)` counting
(lines 137–147 / 286–296). -/
def statusFallback (stats : EmployeeAttendanceStats) (st : RecStatus) :
    EmployeeAttendanceStats :=
  match st with
  | .present => { stats with present_days := stats.present_days + 1 }
  | .absent => { stats with absent_days := stats.absent_days + 1 }
  | .late => { stats with late_days := stats.late_days + 1 }
  | .other => stats

/-- The per-record body shared verbatim by the two hook aggregators
(useEmployeeAttendance.ts lines 78–150 and 218–301, minus the `total_days`
bookkeeping): always add the direct column values; then, only when the four
coerced counters `present/absent/late/ot` are all zero and `notes` is truthy,
parse the notes — on success add the fields of a non-null object (and do
nothing for a non-object), on a parse exception fall back to `status`
counting. -/
def hookProcessRecord (stats : EmployeeAttendanceStats) (r : AttendanceRecord) :
    EmployeeAttendanceStats :=
  let s1 := addDirectValues stats r
  if toNum r.present_days = 0 ∧ toNum r.absent_days = 0 ∧ toNum r.late_days = 0 ∧
      toNum r.ot_hours = 0 ∧ r.notes ≠ none then
    match r.notes with
    | some (.ok (.obj f)) => addNotesValues s1 f
    | some (.ok .jnull) => s1
    | some (.ok .scalar) => s1
    | some .failure => statusFallback s1 r.status
    | none => s1
  else s1

/-- The notes object whose fields PRIORITY 2 of a hook actually adds for a
given record, if any. -/
def hookNotesUsed (r : AttendanceRecord) : Option NotesFields :=
  if toNum r.present_days = 0 ∧ toNum r.absent_days = 0 ∧ toNum r.late_days = 0 ∧
      toNum r.ot_hours = 0 ∧ r.notes ≠ none then
    match r.notes with
    | some (.ok (.obj f)) => some f
    | _ => none
  else none

/-- The single-employee hook `useEmployeeAttendanceStats`: fold the shared
per-record body over the month's records (the query has already filtered them
to one employee and one month); `total_days` is `data.length`. -/
def useEmployeeAttendanceStats (employeeId : String) (records : List AttendanceRecord) :
    EmployeeAttendanceStats :=
  records.foldl hookProcessRecord
    { emptyHookStats employeeId with total_days := (records.length : ℚ) }

/-- One step of `useAllEmployeesAttendanceStats`: create the employee's entry
if absent, bump its `total_days`, then run the shared per-record body. -/
def allStatsStep (m : String → Option EmployeeAttendanceStats) (r : AttendanceRecord) :
    String → Option EmployeeAttendanceStats :=
  fun id =>
    if id = r.employee_id then
      let prev := (m r.employee_id).getD (emptyHookStats r.employee_id)
      some (hookProcessRecord { prev with total_days := prev.total_days + 1 } r)
    else m id

/-- The all-employees hook `useAllEmployeesAttendanceStats`: the
`employeeStats` map keyed by `employee_id` (a JS object, modelled as a partial
map), built by folding over the month's records. -/
def useAllEmployeesAttendanceStats (records : List AttendanceRecord) :
    String → Option EmployeeAttendanceStats :=
  records.foldl allStatsStep (fun _ => none)

/-- The `AttendanceStats` accumulator of attendanceStats.ts (no `total_days`,
no `deduction`). -/
structure AttendanceStats where
  employee_id : String
  present_days : ℚ
  absent_days : ℚ
  late_days : ℚ
  ot_hours : ℚ
  food : ℚ
  uniform : ℚ
deriving DecidableEq

/-- The all-zero `AttendanceStats` a new employee entry starts with. -/
def emptyAttStats (id : String) : AttendanceStats :=
  { employee_id := id, present_days := 0, absent_days := 0, late_days := 0, ot_hours := 0
    food := 0, uniform := 0 }

/-- The notes object `fetchAttendanceStats` commits to for a record, if any
(attendanceStats.ts lines 52–65): requires truthy `notes` and status
`'present'`; a parse exception, a `null` parse (whose property access throws),
a non-object parse, or an object without a defined `present_days` property all
decline the branch. -/
def fetchNotesResult (r : AttendanceRecord) : Option NotesFields :=
  if r.notes ≠ none ∧ r.status = .present then
    match r.notes with
    | some (.ok (.obj f)) => if f.present_days.isSome then some f else none
    | _ => none
  else none

/-- The notes-branch accumulation of `fetchAttendanceStats` (lines 57–62):
add the six fields, each defaulted by `|| 0`. -/
def fetchAddNotes (stats : AttendanceStats) (f : NotesFields) : AttendanceStats :=
  { stats with
    present_days := stats.present_days + toNum f.present_days
    absent_days := stats.absent_days + toNum f.absent_days
    late_days := stats.late_days + toNum f.late_days
    ot_hours := stats.ot_hours + toNum f.ot_hours
    food := stats.food + toNum f.food
    uniform := stats.uniform + toNum f.uniform }

/-- The `switch (record.status)` counting of `fetchAttendanceStats`
(lines 71–81). -/
def fetchStatusCount (stats : AttendanceStats) (st : RecStatus) : AttendanceStats :=
  match st with
  | .present => { stats with present_days := stats.present_days + 1 }
  | .absent => { stats with absent_days := stats.absent_days + 1 }
  | .late => { stats with late_days := stats.late_days + 1 }
  | .other => stats

/-- The overtime-from-timestamps computation of `fetchAttendanceStats`
(lines 84–92): when both times are present, hours worked beyond 8 are added
to `ot_hours`. -/
def fetchOtFromTimes (stats : AttendanceStats) (r : AttendanceRecord) : AttendanceStats :=
  match r.check_in_time, r.check_out_time with
  | some tIn, some tOut =>
    let workHours := tOut - tIn
    if 8 < workHours then { stats with ot_hours := stats.ot_hours + (workHours - 8) }
    else stats
  | some _, none => stats
  | none, some _ => stats
  | none, none => stats

/-- The per-record body of `fetchAttendanceStats` (lines 52–93): the committed
notes branch returns early; every other record gets status counting followed
by the timestamp overtime computation. -/
def fetchProcessRecord (stats : AttendanceStats) (r : AttendanceRecord) : AttendanceStats :=
  match fetchNotesResult r with
  | some f => fetchAddNotes stats f
  | none => fetchOtFromTimes (fetchStatusCount stats r.status) r

/-- One step of `fetchAttendanceStats`: create the employee's entry when
absent, then run the per-record body. -/
def fetchStep (m : String → Option AttendanceStats) (r : AttendanceRecord) :
    String → Option AttendanceStats :=
  fun id =>
    if id = r.employee_id then
      some (fetchProcessRecord ((m r.employee_id).getD (emptyAttStats r.employee_id)) r)
    else m id

/-- The aggregator `fetchAttendanceStats` of attendanceStats.ts: the
`employeeStats` map built by folding over the month's records. -/
def fetchAttendanceStats (records : List AttendanceRecord) :
    String → Option AttendanceStats :=
  records.foldl fetchStep (fun _ => none)

/-- The static employee attributes GenerateReportsDialog.tsx reads.  String
columns are modelled as plain strings (`null` behaves as the empty string
under the `|| ''` defaults); the numeric salary columns are nullable and
defaulted by `|| 0`. -/
structure Employee where
  id : String
  employee_id : String
  name : String
  pf_number : String
  esi_number : String
  basic_salary : Option ℚ
  da_amount : Option ℚ
deriving DecidableEq

/-- `stats?.xyz || 0`: optional chaining into a possibly-missing stats record
followed by the `|| 0` default. -/
def statQ (st : Option EmployeeAttendanceStats) (f : EmployeeAttendanceStats → ℚ) : ℚ :=
  match st with
  | some s => f s
  | none => 0

/-- The filter both report generators apply first (GenerateReportsDialog.tsx
lines 33–36 and 110–113): keep an employee iff a stats entry exists and has
positive `present_days` or positive `ot_hours`. -/
def hasAttendanceData (sm : String → Option EmployeeAttendanceStats) (e : Employee) : Bool :=
  match sm e.id with
  | some st => decide (0 < st.present_days) || decide (0 < st.ot_hours)
  | none => false

/-- `employeesWithData`, the filtered employee list both generators compute. -/
def employeesWithData (emps : List Employee) (sm : String → Option EmployeeAttendanceStats) :
    List Employee :=
  emps.filter (hasAttendanceData sm)

/-- `Math.round(basicSalary * presentDays)` (GenerateReportsDialog.tsx
lines 56 and 133). -/
def earnedBasic (basicSalary presentDays : ℚ) : ℤ := jsRound (basicSalary * presentDays)

/-- `Math.round(daAmount * presentDays)` (lines 57 and 134). -/
def earnedDA (daAmount presentDays : ℚ) : ℤ := jsRound (daAmount * presentDays)

/-- `Math.round(otHours * 60)` — 60 currency units per overtime hour
(lines 58 and 135). -/
def otAmount (otHours : ℚ) : ℤ := jsRound (otHours * 60)

/-- One row of the PF report. -/
structure PFRow where
  empNo : String
  name : String
  pfNo : String
  presentDays : ℚ
  pfBasic : ℤ
  emp12Amt : ℤ
  epf : ℤ
  eps : ℤ
  totalEmployer : ℤ
deriving DecidableEq

/-- The per-employee PF computation (GenerateReportsDialog.tsx lines 48–77). -/
def mkPFRow (sm : String → Option EmployeeAttendanceStats) (e : Employee) : PFRow :=
  let stats := sm e.id
  let presentDays := statQ stats (fun s => s.present_days)
  let otHours := statQ stats (fun s => s.ot_hours)
  let eb := earnedBasic (toNum e.basic_salary) presentDays
  let ed := earnedDA (toNum e.da_amount) presentDays
  let ot := otAmount otHours
  let pfBasic := eb + ed + ot
  { empNo := e.employee_id
    name := e.name
    pfNo := e.pf_number
    presentDays := presentDays
    pfBasic := pfBasic
    emp12Amt := min (jsRound ((pfBasic : ℚ) * 0.12)) 1800
    epf := jsRound ((pfBasic : ℚ) * 0.0833)
    eps := jsRound ((pfBasic : ℚ) * 0.0367)
    totalEmployer := jsRound ((pfBasic : ℚ) * 0.0833) + jsRound ((pfBasic : ℚ) * 0.0367) }

/-- One row of the ESI report. -/
structure ESIRow where
  empNo : String
  name : String
  esiNo : String
  presentDays : ℚ
  grossEarnings : ℤ
  employeeESI : ℤ
  employerESI : ℤ
  totalESI : ℤ
deriving DecidableEq

/-- The per-employee ESI computation (GenerateReportsDialog.tsx
lines 125–153). -/
def mkESIRow (sm : String → Option EmployeeAttendanceStats) (e : Employee) : ESIRow :=
  let stats := sm e.id
  let presentDays := statQ stats (fun s => s.present_days)
  let otHours := statQ stats (fun s => s.ot_hours)
  let eb := earnedBasic (toNum e.basic_salary) presentDays
  let ed := earnedDA (toNum e.da_amount) presentDays
  let ot := otAmount otHours
  let grossEarnings := eb + ed + ot
  let employeeESI := if 21000 < grossEarnings then 0 else jsRound ((grossEarnings : ℚ) * 0.0075)
  let employerESI := if 21000 < grossEarnings then 0 else jsRound ((grossEarnings : ℚ) * 0.0325)
  { empNo := e.employee_id
    name := e.name
    esiNo := e.esi_number
    presentDays := presentDays
    grossEarnings := grossEarnings
    employeeESI := employeeESI
    employerESI := employerESI
    totalESI := employeeESI + employerESI }

/-- Decimal text of an integer, exactly as JavaScript prints it into a
template literal. -/
def decTextI (n : ℤ) : List Char := (toString n).data

/-- Decimal text of a rational: exact for the integral values the round-trip
statements concern (JavaScript prints a float with integral value as a plain
integer numeral; printing non-integral floats uses shortest-round-trip
notation, which has no counterpart on `ℚ` and is outside this model). -/
def decTextQ (q : ℚ) : List Char := if q.den = 1 then (toString q.num).data else (toString q).data

/-- The cell text `${v || ''}` produces for an integer-valued cell: the empty
string when the value is falsy (zero), its decimal text otherwise. -/
def renderIntCell (n : ℤ) : List Char := if n = 0 then [] else decTextI n

/-- The cell text `${v || ''}` produces for a rational-valued cell. -/
def renderQCell (q : ℚ) : List Char := if q = 0 then [] else decTextQ q

/-- Field quoting in the CSV writers: every data field is wrapped in double
quotes (GenerateReportsDialog.tsx lines 85 and 161). -/
def quoteField (f : List Char) : List Char := '"' :: (f ++ ['"'])

/-- One CSV data line: quote each cell, join with commas. -/
def csvLine (cells : List (List Char)) : List Char := joinChar ',' (cells.map quoteField)

/-- A whole CSV document: the unquoted header line and the data lines joined
by newlines (lines 82–87 and 158–163). -/
def csvContent (headerLine : List Char) (rows : List (List Char)) : List Char :=
  joinChar '\n' (headerLine :: rows)

/-- Modelled from the spec: stripping the surrounding double quotes from a
field of a data row ("each data row with every field double-quoted", §6). -/
def unquoteField (f : List Char) : List Char := (f.drop 1).dropLast

/-- Modelled from the spec: re-parsing one CSV data row — split on commas,
strip the quotes of each field (§6: "each data row with every field
double-quoted, fields joined by comma"). -/
def parseCsvLine (line : List Char) : List (List Char) :=
  (splitOnChar ',' line).map unquoteField

/-- Modelled from the spec: re-parsing the data rows of a produced CSV
document — split on newlines, skip the header row, parse each data row
(§6: "header row of named columns … rows joined by newline"). -/
def parseCsvRows (content : List Char) : List (List (List Char)) :=
  ((splitOnChar '\n' content).drop 1).map parseCsvLine

/-- The ordered cell texts of a PF data row, after the `|| ''` defaults:
`Emp.No`, `Employee Name`, `PF NO`, `Days Present`, `Basic+DA`, `PF.Basic`,
`Emp.12 Amt`, `E.P.F`, `E.P.S`, `Total Employer` (lines 66–77). -/
def pfRowCells (sm : String → Option EmployeeAttendanceStats) (e : Employee) :
    List (List Char) :=
  let r := mkPFRow sm e
  [r.empNo.data, r.name.data, r.pfNo.data, renderQCell r.presentDays,
   renderIntCell r.pfBasic, renderIntCell r.pfBasic, renderIntCell r.emp12Amt,
   renderIntCell r.epf, renderIntCell r.eps, renderIntCell r.totalEmployer]

/-- The PF report's header line. -/
def pfHeaderLine : List Char :=
  ("Emp.No,Employee Name,PF NO,Days Present,Basic+DA,PF.Basic,Emp.12 Amt," ++
    "E.P.F,E.P.S,Total Employer").data

/-- The CSV text `generatePFReport` builds from the filtered employees. -/
def pfCsvContent (emps : List Employee) (sm : String → Option EmployeeAttendanceStats) :
    List Char :=
  csvContent pfHeaderLine ((employeesWithData emps sm).map (fun e => csvLine (pfRowCells sm e)))

/-- `generatePFReport` (GenerateReportsDialog.tsx lines 31–106): filter the
employees; with an empty filtered list show the "No Data Found" toast and
produce no file (`none`); otherwise produce the CSV document. -/
def generatePFReport (emps : List Employee) (sm : String → Option EmployeeAttendanceStats) :
    Option (List Char) :=
  if employeesWithData emps sm = [] then none else some (pfCsvContent emps sm)

/-- The ordered cell texts of an ESI data row: `Emp.No`, `Employee Name`,
`ESI NO`, `Days Present`, `Gross Earnings`, `Employee ESI (0.75%)`,
`Employer ESI (3.25%)`, `Total ESI` (lines 144–153). -/
def esiRowCells (sm : String → Option EmployeeAttendanceStats) (e : Employee) :
    List (List Char) :=
  let r := mkESIRow sm e
  [r.empNo.data, r.name.data, r.esiNo.data, renderQCell r.presentDays,
   renderIntCell r.grossEarnings, renderIntCell r.employeeESI,
   renderIntCell r.employerESI, renderIntCell r.totalESI]

/-- The ESI report's header line. -/
def esiHeaderLine : List Char :=
  ("Emp.No,Employee Name,ESI NO,Days Present,Gross Earnings,Employee ESI (0.75%)," ++
    "Employer ESI (3.25%),Total ESI").data

/-- The CSV text `generateESIReport` builds from the filtered employees. -/
def esiCsvContent (emps : List Employee) (sm : String → Option EmployeeAttendanceStats) :
    List Char :=
  csvContent esiHeaderLine
    ((employeesWithData emps sm).map (fun e => csvLine (esiRowCells sm e)))

/-- `generateESIReport` (GenerateReportsDialog.tsx lines 108–182): same
filter and no-data behaviour as the PF generator, then the ESI CSV. -/
def generateESIReport (emps : List Employee) (sm : String → Option EmployeeAttendanceStats) :
    Option (List Char) :=
  if employeesWithData emps sm = [] then none else some (esiCsvContent emps sm)

/-- The employee attributes `drawPayslipSection` reads. -/
structure PayslipEmployee where
  basic_salary : ℚ
  hra : ℚ
  allowances : ℚ
  gross_salary : Option ℚ
deriving DecidableEq

/-- The monthly stats fields `drawPayslipSection` reads. -/
structure PayslipStats where
  present_days : ℚ
  absent_days : ℚ
  late_days : ℚ
  ot_hours : ℚ
deriving DecidableEq

/-- `stats.ot_hours * 60` (payslipLayout.ts line 76) — unrounded here. -/
def payslipOtAmount (s : PayslipStats) : ℚ := s.ot_hours * 60

/-- `employee.gross_salary || (basic_salary + hra + allowances) || 0`
(line 77): a present non-zero stored gross wins, otherwise the component sum
(whose `|| 0` default is the identity on numbers). -/
def payslipGross (e : PayslipEmployee) : ℚ :=
  match e.gross_salary with
  | some g => if g = 0 then e.basic_salary + e.hra + e.allowances else g
  | none => e.basic_salary + e.hra + e.allowances

/-- `Math.min(Math.round(pfBaseSalary * 0.12), 1800)` where `pfBaseSalary`
is `basic_salary + hra + allowances` (lines 79–80) — the base excludes
overtime. -/
def payslipPF (e : PayslipEmployee) : ℤ :=
  min (jsRound ((e.basic_salary + e.hra + e.allowances) * 0.12)) 1800

/-- `Math.round(grossEarnings * 0.0075)` (line 81) — no exemption
threshold. -/
def payslipESI (e : PayslipEmployee) : ℤ := jsRound (payslipGross e * 0.0075)

/-- `pf + esi` (line 82). -/
def payslipTotalDeductions (e : PayslipEmployee) : ℤ := payslipPF e + payslipESI e

/-- `grossEarnings + otAmount - totalDeductions` (line 83). -/
def payslipNetPay (e : PayslipEmployee) (s : PayslipStats) : ℚ :=
  payslipGross e + payslipOtAmount s - ((payslipTotalDeductions e : ℤ) : ℚ)

/-- A notes object with no properties (also the shape of a parsed JSON
array). -/
def emptyNotesFields : NotesFields :=
  { present_days := none, absent_days := none, late_days := none, ot_hours := none
    food := none, uniform := none }

/-- A raw attendance row with every nullable column absent. -/
def blankRecord (id : String) (st : RecStatus) : AttendanceRecord :=
  { employee_id := id, status := st, present_days := none, absent_days := none
    late_days := none, ot_hours := none, food := none, uniform := none, deduction := none
    notes := none, check_in_time := none, check_out_time := none }

/-- Concrete row: all four counters zero/absent, a non-zero `food` column,
no notes, status `present`. -/
def cexRecC1 : AttendanceRecord := { blankRecord "e1" .present with food := some 5 }

/-- Concrete row: no structured values, no notes, an 09:00 check-in and a
19:00 check-out. -/
def cexRecC2 : AttendanceRecord :=
  { blankRecord "e1" .present with check_in_time := some 9, check_out_time := some 19 }

/-- A notes object carrying only `present_days = 2` (C2 witness). -/
def wNotesC2 : NotesFields := { emptyNotesFields with present_days := some 2 }

/-- Concrete row whose notes hold a JSON object carrying `present_days`. -/
def wRecC2 : AttendanceRecord :=
  { blankRecord "e1" .present with notes := some (.ok (.obj wNotesC2)) }

/-- Concrete row: four counters zero/absent but `food = 5`, and notes carrying
a JSON object with `present_days = 3`. -/
def cexRecC3 : AttendanceRecord :=
  { blankRecord "e1" .present with
      food := some 5
      notes := some (.ok (.obj { emptyNotesFields with present_days := some 3 })) }

/-- Stats entry with `present_days = 0` but positive overtime (as produced by
a month holding one overtime-only record). -/
def statsC4 : EmployeeAttendanceStats := { emptyHookStats "E1" with ot_hours := 1 }

/-- Stats map holding `statsC4` for employee id `E1`. -/
def smC4 : String → Option EmployeeAttendanceStats :=
  fun id => if id = "E1" then some statsC4 else none

/-- Concrete employee for the CSV zero-field counterexample. -/
def empC4 : Employee :=
  { id := "E1", employee_id := "001", name := "A", pf_number := "PF1", esi_number := "ESI1"
    basic_salary := some 100, da_amount := none }

/-- Stats entry with two present days and one overtime hour. -/
def statsW4 : EmployeeAttendanceStats :=
  { emptyHookStats "E1" with present_days := 2, ot_hours := 1 }

/-- Stats map holding `statsW4` for employee id `E1`. -/
def smW4 : String → Option EmployeeAttendanceStats :=
  fun id => if id = "E1" then some statsW4 else none

/-- Concrete employee whose PF/ESI row values are all non-zero. -/
def empW4 : Employee :=
  { id := "E1", employee_id := "001", name := "A", pf_number := "PF1", esi_number := "ESI1"
    basic_salary := some 100, da_amount := some 10 }

/-- Stats entry with one present day and no overtime. -/
def statsC5 : EmployeeAttendanceStats := { emptyHookStats "E1" with present_days := 1 }

/-- Stats map holding `statsC5` for employee id `E1`. -/
def smC5 : String → Option EmployeeAttendanceStats :=
  fun id => if id = "E1" then some statsC5 else none

/-- Concrete employee with a 60-per-day salary: one present day gives gross
earnings 60, small enough that `Math.round(60 * 0.0075) = 0`. -/
def empC5 : Employee :=
  { id := "E1", employee_id := "001", name := "A", pf_number := "PF1", esi_number := "ESI1"
    basic_salary := some 60, da_amount := none }

/-- Concrete employee with a 100-per-day salary: one present day gives gross
earnings 100. -/
def empW5 : Employee :=
  { id := "E1", employee_id := "001", name := "A", pf_number := "PF1", esi_number := "ESI1"
    basic_salary := some 100, da_amount := none }

/-- Concrete row: no structured values, notes present but unparsable, status
`absent`. -/
def wRecC1 : AttendanceRecord :=
  { blankRecord "e1" .absent with notes := some NotesParse.failure }

/-- Concrete row with a non-zero structured counter (`present_days = 2`). -/
def wRecC3 : AttendanceRecord := { blankRecord "e1" .present with present_days := some 2 }

/-- A notes object carrying only `present_days = 2`. -/
def wNotesC10 : NotesFields := { emptyNotesFields with present_days := some 2 }

/-- Concrete row committing to the notes branch of `fetchAttendanceStats`. -/
def wRecC10 : AttendanceRecord :=
  { blankRecord "e1" .present with notes := some (.ok (.obj wNotesC10)) }

/-- Concrete employee with no qualifying attendance (zero stats). -/
def empC9 : Employee :=
  { id := "E9", employee_id := "009", name := "B", pf_number := "PF9", esi_number := "ESI9"
    basic_salary := some 100, da_amount := some 10 }

/-- Stats map giving employee id `E9` an all-zero entry. -/
def smC9 : String → Option EmployeeAttendanceStats :=
  fun id => if id = "E9" then some (emptyHookStats "E9") else none

/-- The texts the spec says a PF data row's fields should re-parse to: the
string columns and the decimal text of each computed value. -/
def pfRowTexts (sm : String → Option EmployeeAttendanceStats) (e : Employee) :
    List (List Char) :=
  let r := mkPFRow sm e
  [r.empNo.data, r.name.data, r.pfNo.data, decTextQ r.presentDays,
   decTextI r.pfBasic, decTextI r.pfBasic, decTextI r.emp12Amt,
   decTextI r.epf, decTextI r.eps, decTextI r.totalEmployer]

/-- The texts the spec says an ESI data row's fields should re-parse to. -/
def esiRowTexts (sm : String → Option EmployeeAttendanceStats) (e : Employee) :
    List (List Char) :=
  let r := mkESIRow sm e
  [r.empNo.data, r.name.data, r.esiNo.data, decTextQ r.presentDays,
   decTextI r.grossEarnings, decTextI r.employeeESI,
   decTextI r.employerESI, decTextI r.totalESI]

/-- A string column value that survives the naive quote-and-join CSV format:
no comma and no newline among its characters. -/
def cleanStr (s : String) : Prop := ',' ∉ s.data ∧ '\n' ∉ s.data

/-- The conditions under which a PF row round-trips exactly: clean string
columns, and every numeric cell non-zero (zero renders as the empty string
under `|| ''`) with an integral `Days Present`. -/
def pfRowClean (sm : String → Option EmployeeAttendanceStats) (e : Employee) : Prop :=
  cleanStr e.employee_id ∧ cleanStr e.name ∧ cleanStr e.pf_number ∧
  (mkPFRow sm e).presentDays ≠ 0 ∧ ((mkPFRow sm e).presentDays).den = 1 ∧
  (mkPFRow sm e).pfBasic ≠ 0 ∧ (mkPFRow sm e).emp12Amt ≠ 0 ∧
  (mkPFRow sm e).epf ≠ 0 ∧ (mkPFRow sm e).eps ≠ 0 ∧ (mkPFRow sm e).totalEmployer ≠ 0

/-- The conditions under which an ESI row round-trips exactly. -/
def esiRowClean (sm : String → Option EmployeeAttendanceStats) (e : Employee) : Prop :=
  cleanStr e.employee_id ∧ cleanStr e.name ∧ cleanStr e.esi_number ∧
  (mkESIRow sm e).presentDays ≠ 0 ∧ ((mkESIRow sm e).presentDays).den = 1 ∧
  (mkESIRow sm e).grossEarnings ≠ 0 ∧ (mkESIRow sm e).employeeESI ≠ 0 ∧
  (mkESIRow sm e).employerESI ≠ 0 ∧ (mkESIRow sm e).totalESI ≠ 0

theorem splitOnCharAux_no_sep (c : Char) (x : List Char) :
    ∀ acc, c ∉ x → splitOnCharAux c x acc = [acc.reverse ++ x] := by
  induction x with
  | nil => intro acc _; simp [splitOnCharAux]
  | cons y ys ih =>
    intro acc h
    rw [List.mem_cons, not_or] at h
    obtain ⟨h1, h2⟩ := h
    have hy : ¬ y = c := fun hEq => h1 hEq.symm
    simp only [splitOnCharAux, if_neg hy]
    rw [ih _ h2]
    simp

theorem splitOnCharAux_sep_append (c : Char) (x : List Char) :
    ∀ (t acc : List Char), c ∉ x →
      splitOnCharAux c (x ++ c :: t) acc = (acc.reverse ++ x) :: splitOnCharAux c t [] := by
  induction x with
  | nil => intro t acc _; simp [splitOnCharAux]
  | cons y ys ih =>
    intro t acc h
    rw [List.mem_cons, not_or] at h
    obtain ⟨h1, h2⟩ := h
    have hy : ¬ y = c := fun hEq => h1 hEq.symm
    simp only [List.cons_append, splitOnCharAux, if_neg hy]
    simp only [List.append_eq]
    rw [ih _ _ h2]
    simp

theorem splitOnChar_joinChar (c : Char) (ls : List (List Char)) (hne : ls ≠ [])
    (hmem : ∀ l ∈ ls, c ∉ l) : splitOnChar c (joinChar c ls) = ls := by
  induction ls with
  | nil => exact absurd rfl hne
  | cons x xs ih =>
    cases xs with
    | nil =>
      have hx : c ∉ x := hmem x (by simp)
      simp [joinChar, splitOnChar, splitOnCharAux_no_sep c x [] hx]
    | cons y ys =>
      have hx : c ∉ x := hmem x (by simp)
      have hrec : splitOnChar c (joinChar c (y :: ys)) = y :: ys :=
        ih (by simp) (fun l hl => hmem l (List.mem_cons_of_mem _ hl))
      show splitOnCharAux c (joinChar c (x :: y :: ys)) [] = x :: y :: ys
      rw [show joinChar c (x :: y :: ys) = x ++ c :: joinChar c (y :: ys) from rfl]
      rw [splitOnCharAux_sep_append c x _ [] hx]
      simp only [List.reverse_nil, List.nil_append]
      rw [show splitOnCharAux c (joinChar c (y :: ys)) [] = splitOnChar c (joinChar c (y :: ys))
        from rfl, hrec]

theorem mem_joinChar {a c : Char} {ls : List (List Char)} (h : a ∈ joinChar c ls) :
    a = c ∨ ∃ l ∈ ls, a ∈ l := by
  induction ls with
  | nil => simp [joinChar] at h
  | cons x xs ih =>
    cases xs with
    | nil =>
      simp only [joinChar] at h
      exact Or.inr ⟨x, by simp, h⟩
    | cons y ys =>
      rw [show joinChar c (x :: y :: ys) = x ++ c :: joinChar c (y :: ys) from rfl] at h
      rcases List.mem_append.mp h with h1 | h2
      · exact Or.inr ⟨x, by simp, h1⟩
      · rcases List.mem_cons.mp h2 with h3 | h4
        · exact Or.inl h3
        · rcases ih h4 with h5 | ⟨l, hl, hal⟩
          · exact Or.inl h5
          · exact Or.inr ⟨l, List.mem_cons_of_mem _ hl, hal⟩

theorem mem_quoteField {a : Char} {f : List Char} (h : a ∈ quoteField f) :
    a = '"' ∨ a ∈ f := by
  simp only [quoteField, List.mem_cons, List.mem_append] at h
  rcases h with h | h | h
  · exact Or.inl h
  · exact Or.inr h
  · exact Or.inl (by simpa using h)

theorem unquoteField_quoteField (f : List Char) : unquoteField (quoteField f) = f := by
  simp [quoteField, unquoteField]

theorem parseCsvLine_csvLine (cells : List (List Char)) (hne : cells ≠ [])
    (hc : ∀ f ∈ cells, ',' ∉ f) : parseCsvLine (csvLine cells) = cells := by
  unfold parseCsvLine csvLine
  rw [splitOnChar_joinChar ',' (cells.map quoteField) (by simpa using hne) ?clean]
  case clean =>
    intro l hl
    rcases List.mem_map.mp hl with ⟨f, hf, rfl⟩
    intro hmem
    rcases mem_quoteField hmem with h1 | h1
    · exact absurd h1 (by decide)
    · exact hc f hf h1
  rw [List.map_map]
  have hid : (unquoteField ∘ quoteField) = id := funext unquoteField_quoteField
  rw [hid, List.map_id]

theorem no_newline_csvLine {cells : List (List Char)} (hc : ∀ f ∈ cells, '\n' ∉ f) :
    '\n' ∉ csvLine cells := by
  intro hmem
  rcases mem_joinChar hmem with h1 | ⟨l, hl, hal⟩
  · exact absurd h1 (by decide)
  · rcases List.mem_map.mp hl with ⟨f, hf, rfl⟩
    rcases mem_quoteField hal with h2 | h2
    · exact absurd h2 (by decide)
    · exact hc f hf h2

theorem parseCsvRows_csvContent (hdr : List Char) (lines : List (List Char))
    (hhdr : '\n' ∉ hdr) (hlines : ∀ l ∈ lines, '\n' ∉ l) :
    parseCsvRows (csvContent hdr lines) = lines.map parseCsvLine := by
  unfold parseCsvRows csvContent
  rw [splitOnChar_joinChar '\n' (hdr :: lines) (by simp) ?clean]
  case clean =>
    intro l hl
    rcases List.mem_cons.mp hl with rfl | h
    · exact hhdr
    · exact hlines l h
  simp

theorem digitChar_isDigit {m : ℕ} (h : m < 10) : (Nat.digitChar m).isDigit = true := by
  interval_cases m <;> decide

theorem toDigitsCore_digits (f : ℕ) :
    ∀ (n : ℕ) (acc : List Char), (∀ c ∈ acc, c.isDigit = true) →
      ∀ c ∈ Nat.toDigitsCore 10 f n acc, c.isDigit = true := by
  induction f with
  | zero => intro n acc hacc c hc; exact hacc c hc
  | succ f ih =>
    intro n acc hacc c hc
    simp only [Nat.toDigitsCore] at hc
    have hd : ∀ d ∈ Nat.digitChar (n % 10) :: acc, d.isDigit = true := by
      intro d hdm
      rcases List.mem_cons.mp hdm with rfl | h
      · exact digitChar_isDigit (Nat.mod_lt _ (by norm_num))
      · exact hacc d h
    split at hc
    · exact hd c hc
    · exact ih _ _ hd c hc

theorem natRepr_digits (n : ℕ) : ∀ c ∈ (Nat.repr n).data, c.isDigit = true := by
  intro c hc
  have hrepr : (Nat.repr n).data = Nat.toDigitsCore 10 (n + 1) n [] := rfl
  rw [hrepr] at hc
  exact toDigitsCore_digits (n + 1) n [] (by simp) c hc

theorem decTextI_digits (n : ℤ) : ∀ c ∈ decTextI n, c.isDigit = true ∨ c = '-' := by
  intro c hc
  match n with
  | Int.ofNat m =>
    have h : decTextI (Int.ofNat m) = (Nat.repr m).data := rfl
    rw [h] at hc
    exact Or.inl (natRepr_digits m c hc)
  | Int.negSucc m =>
    have h : decTextI (Int.negSucc m) = ('-' :: (Nat.repr (m + 1)).data) := rfl
    rw [h] at hc
    rcases List.mem_cons.mp hc with rfl | h2
    · exact Or.inr rfl
    · exact Or.inl (natRepr_digits _ c h2)

theorem decTextI_no_comma (n : ℤ) : ',' ∉ decTextI n := by
  intro h
  rcases decTextI_digits n ',' h with h1 | h1
  · exact absurd h1 (by decide)
  · exact absurd h1 (by decide)

theorem decTextI_no_newline (n : ℤ) : '\n' ∉ decTextI n := by
  intro h
  rcases decTextI_digits n '\n' h with h1 | h1
  · exact absurd h1 (by decide)
  · exact absurd h1 (by decide)

theorem decTextQ_den_one {q : ℚ} (h : q.den = 1) : decTextQ q = decTextI q.num := by
  simp [decTextQ, decTextI, h]


/-- C1: the claim says that, for a record whose four structured counters are
all zero, the status-based counting fires when notes are absent, unparsable,
or unusable, touching nothing else.  In the code the status fallback fires
only from the `catch` of `JSON.parse`, so an absent-notes record counts
nothing — and the `food/uniform/deduction` columns are added regardless.
Counterexample: a record with `food = 5`, no notes and status `present` adds
5 to `food` and does not increment `present_days`. -/
theorem claim1_cex :
    useEmployeeAttendanceStats "e1" [cexRecC1] =
      { emptyHookStats "e1" with total_days := 1, food := 5 }
  ∧ useEmployeeAttendanceStats "e1" [cexRecC1] ≠
      { emptyHookStats "e1" with total_days := 1, present_days := 1 } := by
  have h : useEmployeeAttendanceStats "e1" [cexRecC1] =
      { emptyHookStats "e1" with total_days := 1, food := 5 } := by
    show hookProcessRecord { emptyHookStats "e1" with total_days := (1 : ℚ) } cexRecC1 = _
    norm_num [hookProcessRecord, addDirectValues, toNum, cexRecC1, blankRecord, emptyHookStats]
  refine ⟨h, fun hcon => ?_⟩
  rw [h] at hcon
  have h5 := congrArg EmployeeAttendanceStats.present_days hcon
  norm_num [emptyHookStats] at h5

/-- C1 amended: in both hook aggregators (whose per-record body is
`hookProcessRecord`), for a record whose four coerced counters
`present/absent/late/ot` are all zero, the status-based counting runs exactly
when notes are present and fail to parse — incrementing exactly one of
present/absent/late for a status in the enum and nothing for any other
status — while an absent notes column or one parsing to a non-object or
`null` leaves the priority-1 accumulation as the record's entire effect
(the `food/uniform/deduction` columns being accumulated in every case). -/
theorem claim1_amended (stats : EmployeeAttendanceStats) (r : AttendanceRecord)
    (h1 : toNum r.present_days = 0) (h2 : toNum r.absent_days = 0)
    (h3 : toNum r.late_days = 0) (h4 : toNum r.ot_hours = 0) :
    (r.notes = some NotesParse.failure →
      hookProcessRecord stats r =
        { addDirectValues stats r with
            present_days := (addDirectValues stats r).present_days +
              (if r.status = RecStatus.present then 1 else 0)
            absent_days := (addDirectValues stats r).absent_days +
              (if r.status = RecStatus.absent then 1 else 0)
            late_days := (addDirectValues stats r).late_days +
              (if r.status = RecStatus.late then 1 else 0) })
    ∧ (r.notes = none → hookProcessRecord stats r = addDirectValues stats r)
    ∧ ((r.notes = some (NotesParse.ok NotesJson.jnull) ∨
        r.notes = some (NotesParse.ok NotesJson.scalar)) →
        hookProcessRecord stats r = addDirectValues stats r) := by
  refine ⟨?_, ?_, ?_⟩
  · intro hn
    unfold hookProcessRecord
    rw [if_pos ⟨h1, h2, h3, h4, by rw [hn]; exact fun hcon => Option.noConfusion hcon⟩, hn]
    cases hst : r.status <;> simp [statusFallback, hst]
  · intro hn
    unfold hookProcessRecord
    rw [if_neg (fun hcon => hcon.2.2.2.2 hn)]
  · intro hn
    unfold hookProcessRecord
    rcases hn with hn | hn <;>
      rw [if_pos ⟨h1, h2, h3, h4, by rw [hn]; exact fun hcon => Option.noConfusion hcon⟩, hn]

/-- Witness for the amended C1 at a concrete record: unparsable notes with
status `absent` increment exactly the absent counter. -/
theorem claim1_witness :
    hookProcessRecord (emptyHookStats "e1") wRecC1 =
      { addDirectValues (emptyHookStats "e1") wRecC1 with
          absent_days := (addDirectValues (emptyHookStats "e1") wRecC1).absent_days + 1 } := by
  have h := (claim1_amended (emptyHookStats "e1") wRecC1 rfl rfl rfl rfl).1 rfl
  simpa [wRecC1, blankRecord] using h

/-- C2: the claim attributes the overtime-from-timestamps rule, applied
unconditionally, to the single-employee aggregation variant.  The
single-employee hook `useEmployeeAttendanceStats` never reads the
timestamps: a record with a 9:00 check-in and a 19:00 check-out (and nothing
else) yields zero overtime there, while the rule does live in
`fetchAttendanceStats`, which credits the same record with 2 hours. -/
theorem claim2_cex :
    (useEmployeeAttendanceStats "e1" [cexRecC2]).ot_hours = 0
  ∧ ¬ (useEmployeeAttendanceStats "e1" [cexRecC2]).ot_hours = 2
  ∧ (fetchProcessRecord (emptyAttStats "e1") cexRecC2).ot_hours = 2 := by
  have h : (useEmployeeAttendanceStats "e1" [cexRecC2]).ot_hours = 0 := by
    show (hookProcessRecord { emptyHookStats "e1" with total_days := (1 : ℚ) }
      cexRecC2).ot_hours = 0
    norm_num [hookProcessRecord, addDirectValues, toNum, cexRecC2, blankRecord, emptyHookStats]
  refine ⟨h, by rw [h]; norm_num, ?_⟩
  norm_num [fetchProcessRecord, fetchNotesResult, fetchOtFromTimes, fetchStatusCount,
    cexRecC2, blankRecord, emptyAttStats, toNum]

/-- C2 amended: the overtime-from-timestamps rule lives only in
`fetchAttendanceStats`, where it runs after status counting for every record
that does not commit to the notes branch (and is skipped for records that
do); both hook aggregators ignore the timestamp columns entirely, their
`ot_hours` coming only from priority branches 1–2. -/
theorem claim2_amended :
    (∀ (stats : EmployeeAttendanceStats) (r : AttendanceRecord) (tIn tOut : Option ℚ),
      hookProcessRecord stats { r with check_in_time := tIn, check_out_time := tOut } =
        hookProcessRecord stats r)
  ∧ (∀ (stats : EmployeeAttendanceStats) (r : AttendanceRecord),
      (hookProcessRecord stats r).ot_hours =
        stats.ot_hours + toNum r.ot_hours +
          toNum ((hookNotesUsed r).bind NotesFields.ot_hours))
  ∧ (∀ (stats : AttendanceStats) (r : AttendanceRecord) (f : NotesFields),
      fetchNotesResult r = some f → fetchProcessRecord stats r = fetchAddNotes stats f)
  ∧ (∀ (stats : AttendanceStats) (r : AttendanceRecord),
      fetchNotesResult r = none →
        fetchProcessRecord stats r = fetchOtFromTimes (fetchStatusCount stats r.status) r) := by
  refine ⟨fun stats r tIn tOut => rfl, ?_, ?_, ?_⟩
  · intro stats r
    unfold hookProcessRecord hookNotesUsed
    by_cases hcond : (toNum r.present_days = 0 ∧ toNum r.absent_days = 0 ∧
        toNum r.late_days = 0 ∧ toNum r.ot_hours = 0 ∧ r.notes ≠ none)
    · rw [if_pos hcond, if_pos hcond]
      rcases hn : r.notes with _ | np
      · exact absurd hn hcond.2.2.2.2
      · rcases np with _ | v
        · cases hst : r.status <;>
            simp [statusFallback, addDirectValues, toNum]
        · rcases v with _ | _ | f <;>
            simp [addDirectValues, addNotesValues, toNum, add_assoc]
    · rw [if_neg hcond, if_neg hcond]
      simp [addDirectValues, toNum]
  · intro stats r f h
    unfold fetchProcessRecord
    rw [h]
  · intro stats r h
    unfold fetchProcessRecord
    rw [h]

/-- Witness for the amended C2 at concrete records: a record committing to
the notes branch takes it and skips the overtime step, and a record without
usable notes gets status counting followed by the overtime step. -/
theorem claim2_witness :
    fetchProcessRecord (emptyAttStats "e1") wRecC2 = fetchAddNotes (emptyAttStats "e1") wNotesC2
  ∧ fetchProcessRecord (emptyAttStats "e1") cexRecC2 =
      fetchOtFromTimes (fetchStatusCount (emptyAttStats "e1") cexRecC2.status) cexRecC2 := by
  constructor
  · exact claim2_amended.2.2.1 (emptyAttStats "e1") wRecC2 wNotesC2 (by decide)
  · exact claim2_amended.2.2.2 (emptyAttStats "e1") cexRecC2 (by decide)

/-- C3: the claim says any non-zero structured numeric field (including
`food`, `uniform`, `deduction`) suppresses the notes fallback.  The gate in
the code checks only the four counters, so a record whose only non-zero
structured field is `food = 5` still takes the notes branch, merging the
notes object's `present_days = 3` with the structured `food` value. -/
theorem claim3_cex :
    hookProcessRecord (emptyHookStats "e1") cexRecC3 =
      { emptyHookStats "e1" with present_days := 3, food := 5 }
  ∧ hookProcessRecord (emptyHookStats "e1") cexRecC3 ≠
      addDirectValues (emptyHookStats "e1") cexRecC3 := by
  have h : hookProcessRecord (emptyHookStats "e1") cexRecC3 =
      { emptyHookStats "e1" with present_days := 3, food := 5 } := by
    norm_num [hookProcessRecord, addDirectValues, addNotesValues, toNum, cexRecC3,
      blankRecord, emptyHookStats, emptyNotesFields]
    intro hcon
    exact Option.noConfusion hcon
  refine ⟨h, ?_⟩
  rw [h]
  intro hcon
  have h3 : (3 : ℚ) = 0 + toNum cexRecC3.present_days := congrArg (fun s => s.present_days) hcon
  revert h3
  norm_num [toNum, cexRecC3, blankRecord]

/-- C3 amended: a non-zero value among the four counters
`present_days/absent_days/late_days/ot_hours` makes aggregation ignore
`notes` entirely (the record's whole effect is the structured-column
accumulation); a record whose only non-zero structured fields are
`food/uniform/deduction` does not suppress the fallback. -/
theorem claim3_amended (stats : EmployeeAttendanceStats) (r : AttendanceRecord)
    (h : toNum r.present_days ≠ 0 ∨ toNum r.absent_days ≠ 0 ∨ toNum r.late_days ≠ 0 ∨
      toNum r.ot_hours ≠ 0) :
    ∀ notesAny : Option NotesParse,
      hookProcessRecord stats { r with notes := notesAny } = addDirectValues stats r := by
  intro n
  unfold hookProcessRecord
  have hneg : ¬ (toNum ({ r with notes := n } : AttendanceRecord).present_days = 0 ∧
      toNum ({ r with notes := n } : AttendanceRecord).absent_days = 0 ∧
      toNum ({ r with notes := n } : AttendanceRecord).late_days = 0 ∧
      toNum ({ r with notes := n } : AttendanceRecord).ot_hours = 0 ∧
      ({ r with notes := n } : AttendanceRecord).notes ≠ none) := by
    rintro ⟨hp, ha, hl, ho, -⟩
    rcases h with h | h | h | h
    · exact h hp
    · exact h ha
    · exact h hl
    · exact h ho
  rw [if_neg hneg]
  rfl

/-- Witness for the amended C3 at a concrete record: `present_days = 2` in
the columns makes the result independent of even unparsable notes. -/
theorem claim3_witness :
    hookProcessRecord (emptyHookStats "e1") { wRecC3 with notes := some NotesParse.failure } =
      addDirectValues (emptyHookStats "e1") wRecC3 := by
  exact claim3_amended (emptyHookStats "e1") wRecC3
    (Or.inl (by norm_num [toNum, wRecC3, blankRecord])) (some NotesParse.failure)

/-- C5: the claim says both ESI contributions are strictly positive whenever
`0 < grossEarnings ≤ 21000`.  Counterexample: gross earnings of 60 (one
present day at a 60-per-day salary) give `Math.round(60 × 0.0075) =
Math.round(0.45) = 0`. -/
theorem claim5_cex :
    (mkESIRow smC5 empC5).grossEarnings = 60
  ∧ (mkESIRow smC5 empC5).employeeESI = 0 := by
  constructor <;>
    norm_num [mkESIRow, statQ, toNum, smC5, empC5, statsC5, emptyHookStats,
      earnedBasic, earnedDA, otAmount, jsRound]

/-- C5 amended: both ESI contributions are exactly 0 whenever
`grossEarnings > 21000`; for `grossEarnings ≤ 21000` they are
`round(gross × 0.0075)` and `round(gross × 0.0325)`, and both are strictly
positive whenever `67 ≤ grossEarnings ≤ 21000` (below 67 the employee
contribution rounds to 0). -/
theorem claim5_amended (sm : String → Option EmployeeAttendanceStats) (e : Employee) :
    (21000 < (mkESIRow sm e).grossEarnings →
      (mkESIRow sm e).employeeESI = 0 ∧ (mkESIRow sm e).employerESI = 0)
  ∧ ((mkESIRow sm e).grossEarnings ≤ 21000 →
      (mkESIRow sm e).employeeESI = jsRound (((mkESIRow sm e).grossEarnings : ℚ) * 0.0075)
      ∧ (mkESIRow sm e).employerESI = jsRound (((mkESIRow sm e).grossEarnings : ℚ) * 0.0325))
  ∧ (67 ≤ (mkESIRow sm e).grossEarnings → (mkESIRow sm e).grossEarnings ≤ 21000 →
      0 < (mkESIRow sm e).employeeESI ∧ 0 < (mkESIRow sm e).employerESI) := by
  have hEmp : (mkESIRow sm e).employeeESI =
      (if 21000 < (mkESIRow sm e).grossEarnings then 0
       else jsRound (((mkESIRow sm e).grossEarnings : ℚ) * 0.0075)) := rfl
  have hEmployer : (mkESIRow sm e).employerESI =
      (if 21000 < (mkESIRow sm e).grossEarnings then 0
       else jsRound (((mkESIRow sm e).grossEarnings : ℚ) * 0.0325)) := rfl
  refine ⟨?_, ?_, ?_⟩
  · intro h
    rw [hEmp, if_pos h, hEmployer, if_pos h]
    exact ⟨rfl, rfl⟩
  · intro h
    have hn : ¬ (21000 < (mkESIRow sm e).grossEarnings) := not_lt.mpr h
    rw [hEmp, if_neg hn, hEmployer, if_neg hn]
    exact ⟨rfl, rfl⟩
  · intro h67 h21
    have hn : ¬ (21000 < (mkESIRow sm e).grossEarnings) := not_lt.mpr h21
    rw [hEmp, if_neg hn, hEmployer, if_neg hn]
    have hq : (67 : ℚ) ≤ ((mkESIRow sm e).grossEarnings : ℚ) := by exact_mod_cast h67
    constructor
    · have h1 : (1 : ℤ) ≤ ⌊((mkESIRow sm e).grossEarnings : ℚ) * 0.0075 + 1/2⌋ := by
        rw [Int.le_floor]
        push_cast
        nlinarith
      unfold jsRound
      omega
    · have h1 : (1 : ℤ) ≤ ⌊((mkESIRow sm e).grossEarnings : ℚ) * 0.0325 + 1/2⌋ := by
        rw [Int.le_floor]
        push_cast
        nlinarith
      unfold jsRound
      omega

/-- Witness for the amended C5 at a concrete employee: gross earnings of 100
give employee ESI `round(0.75) = 1 > 0` and employer ESI `round(3.25) =
3 > 0`. -/
theorem claim5_witness :
    0 < (mkESIRow smC5 empW5).employeeESI ∧ 0 < (mkESIRow smC5 empW5).employerESI := by
  refine (claim5_amended smC5 empW5).2.2 ?_ ?_ <;>
    norm_num [mkESIRow, statQ, toNum, smC5, empW5, statsC5, emptyHookStats,
      earnedBasic, earnedDA, otAmount, jsRound]

/-- C6 (confirmed): payslip deductions are
`PF = min(round((basic+hra+allowances) × 0.12), 1800)` (a base that excludes
overtime), `ESI = round(grossEarnings × 0.0075)` with no 21000 exemption, and
`net pay = grossEarnings + otAmount − (PF + ESI)` with
`otAmount = ot_hours × 60`. -/
theorem claim6 (e : PayslipEmployee) (s : PayslipStats) :
    payslipPF e = min (jsRound ((e.basic_salary + e.hra + e.allowances) * 0.12)) 1800
  ∧ payslipESI e = jsRound (payslipGross e * 0.0075)
  ∧ payslipOtAmount s = s.ot_hours * 60
  ∧ payslipNetPay e s =
      payslipGross e + s.ot_hours * 60 - ((payslipPF e : ℚ) + (payslipESI e : ℚ)) := by
  refine ⟨rfl, rfl, rfl, ?_⟩
  unfold payslipNetPay payslipTotalDeductions payslipOtAmount
  push_cast
  ring

/-- C7: the claim says every monetary rounding step rounds half away from
zero.  `Math.round` rounds half toward positive infinity, which differs on
negative halves: `earnedBasic` at a −0.5 per-day salary and one present day
rounds to 0, while half-away-from-zero gives −1. -/
theorem claim7_cex :
    earnedBasic (-(1/2)) 1 = 0 ∧ roundHalfAwayFromZero (-(1/2) * 1) = -1 := by
  constructor
  · norm_num [earnedBasic, jsRound]
  · norm_num [roundHalfAwayFromZero]

/-- C7 amended: every monetary rounding step in the PF, ESI and payslip
derivations applies `Math.round` (half toward positive infinity) to its own
intermediate value — `earnedBasic`, `earnedDA`, `otAmount`, the
12%/8.33%/3.67% PF components, the 0.75%/3.25% ESI components, and the
payslip's PF and ESI — and `Math.round` agrees with round-half-away-from-zero
on every non-negative argument. -/
theorem claim7_amended :
    (∀ q : ℚ, 0 ≤ q → jsRound q = roundHalfAwayFromZero q)
  ∧ (∀ b p : ℚ, earnedBasic b p = jsRound (b * p))
  ∧ (∀ d p : ℚ, earnedDA d p = jsRound (d * p))
  ∧ (∀ o : ℚ, otAmount o = jsRound (o * 60))
  ∧ (∀ (sm : String → Option EmployeeAttendanceStats) (e : Employee),
      (mkPFRow sm e).emp12Amt = min (jsRound (((mkPFRow sm e).pfBasic : ℚ) * 0.12)) 1800
      ∧ (mkPFRow sm e).epf = jsRound (((mkPFRow sm e).pfBasic : ℚ) * 0.0833)
      ∧ (mkPFRow sm e).eps = jsRound (((mkPFRow sm e).pfBasic : ℚ) * 0.0367))
  ∧ (∀ (sm : String → Option EmployeeAttendanceStats) (e : Employee),
      (mkESIRow sm e).employeeESI =
        (if 21000 < (mkESIRow sm e).grossEarnings then 0
         else jsRound (((mkESIRow sm e).grossEarnings : ℚ) * 0.0075))
      ∧ (mkESIRow sm e).employerESI =
        (if 21000 < (mkESIRow sm e).grossEarnings then 0
         else jsRound (((mkESIRow sm e).grossEarnings : ℚ) * 0.0325)))
  ∧ (∀ e : PayslipEmployee,
      payslipPF e = min (jsRound ((e.basic_salary + e.hra + e.allowances) * 0.12)) 1800
      ∧ payslipESI e = jsRound (payslipGross e * 0.0075)) := by
  refine ⟨?_, fun b p => rfl, fun d p => rfl, fun o => rfl, fun sm e => ⟨rfl, rfl, rfl⟩,
    fun sm e => ⟨rfl, rfl⟩, fun e => ⟨rfl, rfl⟩⟩
  intro q hq
  rw [roundHalfAwayFromZero, if_pos hq]
  rfl

/-- Witness for the amended C7: at 3/2 both roundings agree (both give 2). -/
theorem claim7_witness : jsRound (3/2) = roundHalfAwayFromZero (3/2) :=
  claim7_amended.1 (3/2) (by norm_num)

/-- The local civil day a `new Date(year, monthIndex, day)` instant falls on
is the constructed date itself, whatever the process timezone offset: the
offset cancels between the constructor and the local getters. -/
theorem epochLocalDays_jsDateEpochMin (tz y m d : ℤ) :
    epochLocalDays tz (jsDateEpochMin tz y m d) = jsDateLocalDayNum y m d := by
  unfold epochLocalDays jsDateEpochMin
  rw [Int.sub_add_cancel]
  exact Int.mul_ediv_cancel_left _ (by norm_num)

/-- C8 (confirmed): for every process timezone offset, the month selector
`"2024-02"` yields the inclusive range 2024-02-01 to 2024-02-29 (leap year),
both ends computed from local calendar dates. -/
theorem claim8 (tz : ℤ) :
    monthDateRange tz "2024-02" = ("2024-02-01", "2024-02-29") := by
  have h1 : parseIntD ((splitOnChar '-' "2024-02".data).getD 0 []) = 2024 := by decide
  have h2 : parseIntD ((splitOnChar '-' "2024-02".data).getD 1 []) = 2 := by decide
  simp only [monthDateRange, h1, h2]
  norm_num
  simp only [formatLocalDate, jsGetFullYear, jsGetMonth, jsGetDate,
    epochLocalDays_jsDateEpochMin]
  decide

/-- C9 (confirmed): both report generators exclude every employee whose
monthly stats are absent or have `present_days = 0` and `ot_hours = 0`, and
when the filter leaves no employees both generators report the no-data
condition and produce no file. -/
theorem claim9 :
    (∀ (emps : List Employee) (sm : String → Option EmployeeAttendanceStats) (e : Employee),
      e ∈ emps →
      (sm e.id = none ∨ ∃ st, sm e.id = some st ∧ st.present_days = 0 ∧ st.ot_hours = 0) →
      e ∉ employeesWithData emps sm)
  ∧ (∀ (emps : List Employee) (sm : String → Option EmployeeAttendanceStats),
      employeesWithData emps sm = [] →
      generatePFReport emps sm = none ∧ generateESIReport emps sm = none) := by
  constructor
  · intro emps sm e hmem hz hcontra
    unfold employeesWithData at hcontra
    have hdata : hasAttendanceData sm e = true := (List.mem_filter.mp hcontra).2
    unfold hasAttendanceData at hdata
    rcases hz with hnone | ⟨st, hst, hp, hot⟩
    · rw [hnone] at hdata
      simp at hdata
    · rw [hst] at hdata
      simp only [decide_eq_true_eq, Bool.or_eq_true] at hdata
      rw [hp, hot] at hdata
      norm_num at hdata
  · intro emps sm h
    constructor
    · unfold generatePFReport
      rw [if_pos h]
    · unfold generateESIReport
      rw [if_pos h]

/-- Witness for C9 at a concrete employee with an all-zero stats entry: the
employee is excluded and both generators produce no file. -/
theorem claim9_witness :
    empC9 ∉ employeesWithData [empC9] smC9
  ∧ generatePFReport [empC9] smC9 = none ∧ generateESIReport [empC9] smC9 = none := by
  refine ⟨claim9.1 [empC9] smC9 empC9 (by simp) ?_, ?_, ?_⟩
  · exact Or.inr ⟨emptyHookStats "E9", rfl, rfl, rfl⟩
  · exact (claim9.2 [empC9] smC9 (by decide)).1
  · exact (claim9.2 [empC9] smC9 (by decide)).2

/-- C10 (confirmed): in `fetchAttendanceStats` the notes branch commits to a
record iff the status is `present`, notes are present, and the parsed JSON
has a defined `present_days` property; a committed record takes only the
notes accumulation, every other record gets status counting followed by the
timestamp overtime computation. -/
theorem claim10 (r : AttendanceRecord) :
    ((fetchNotesResult r).isSome = true ↔
      (r.status = RecStatus.present ∧
        ∃ f, r.notes = some (NotesParse.ok (NotesJson.obj f)) ∧ f.present_days.isSome = true))
  ∧ (∀ (stats : AttendanceStats) (f : NotesFields),
      fetchNotesResult r = some f → fetchProcessRecord stats r = fetchAddNotes stats f)
  ∧ (∀ stats : AttendanceStats,
      fetchNotesResult r = none →
        fetchProcessRecord stats r = fetchOtFromTimes (fetchStatusCount stats r.status) r) := by
  refine ⟨?_, ?_, ?_⟩
  · unfold fetchNotesResult
    by_cases hc : (r.notes ≠ none ∧ r.status = RecStatus.present)
    · rw [if_pos hc]
      rcases hn : r.notes with _ | np
      · exact absurd hn hc.1
      · rcases np with _ | v
        · simp
        · rcases v with _ | _ | f
          · simp
          · simp
          · by_cases hps : f.present_days.isSome = true
            · simp [hps, hc.2]
            · simp [hps]
    · rw [if_neg hc]
      simp only [Option.isSome_none, Bool.false_eq_true, false_iff]
      rintro ⟨hst, f, hnotes, hps⟩
      exact hc ⟨by rw [hnotes]; exact fun hcon => Option.noConfusion hcon, hst⟩
  · intro stats f h
    unfold fetchProcessRecord
    rw [h]
  · intro stats h
    unfold fetchProcessRecord
    rw [h]

/-- Witness for C10 at a concrete record committing to the notes branch. -/
theorem claim10_witness :
    fetchProcessRecord (emptyAttStats "e1") wRecC10 = fetchAddNotes (emptyAttStats "e1") wNotesC10
  ∧ (fetchNotesResult wRecC10).isSome = true := by
  constructor
  · exact (claim10 wRecC10).2.1 (emptyAttStats "e1") wNotesC10 (by decide)
  · exact (claim10 wRecC10).1.mpr ⟨rfl, wNotesC10, rfl, rfl⟩

theorem pfRowCells_eq (sm : String → Option EmployeeAttendanceStats) (e : Employee)
    (h : pfRowClean sm e) : pfRowCells sm e = pfRowTexts sm e := by
  obtain ⟨-, -, -, h4, -, h6, h7, h8, h9, h10⟩ := h
  simp only [pfRowCells, pfRowTexts, renderQCell, renderIntCell, if_neg h4, if_neg h6,
    if_neg h7, if_neg h8, if_neg h9, if_neg h10]

theorem pfRowCells_clean (sm : String → Option EmployeeAttendanceStats) (e : Employee)
    (h : pfRowClean sm e) : ∀ f ∈ pfRowCells sm e, ',' ∉ f ∧ '\n' ∉ f := by
  obtain ⟨h1, h2, h3, h4, h5, h6, h7, h8, h9, h10⟩ := h
  rw [pfRowCells_eq sm e ⟨h1, h2, h3, h4, h5, h6, h7, h8, h9, h10⟩]
  intro f hf
  simp only [pfRowTexts, List.mem_cons] at hf
  rcases hf with rfl | rfl | rfl | rfl | rfl | rfl | rfl | rfl | rfl | rfl | hf
  · exact h1
  · exact h2
  · exact h3
  · rw [decTextQ_den_one h5]
    exact ⟨decTextI_no_comma _, decTextI_no_newline _⟩
  · exact ⟨decTextI_no_comma _, decTextI_no_newline _⟩
  · exact ⟨decTextI_no_comma _, decTextI_no_newline _⟩
  · exact ⟨decTextI_no_comma _, decTextI_no_newline _⟩
  · exact ⟨decTextI_no_comma _, decTextI_no_newline _⟩
  · exact ⟨decTextI_no_comma _, decTextI_no_newline _⟩
  · exact ⟨decTextI_no_comma _, decTextI_no_newline _⟩
  · simp at hf

theorem esiRowCells_eq (sm : String → Option EmployeeAttendanceStats) (e : Employee)
    (h : esiRowClean sm e) : esiRowCells sm e = esiRowTexts sm e := by
  obtain ⟨-, -, -, h4, -, h6, h7, h8, h9⟩ := h
  simp only [esiRowCells, esiRowTexts, renderQCell, renderIntCell, if_neg h4, if_neg h6,
    if_neg h7, if_neg h8, if_neg h9]

theorem esiRowCells_clean (sm : String → Option EmployeeAttendanceStats) (e : Employee)
    (h : esiRowClean sm e) : ∀ f ∈ esiRowCells sm e, ',' ∉ f ∧ '\n' ∉ f := by
  obtain ⟨h1, h2, h3, h4, h5, h6, h7, h8, h9⟩ := h
  rw [esiRowCells_eq sm e ⟨h1, h2, h3, h4, h5, h6, h7, h8, h9⟩]
  intro f hf
  simp only [esiRowTexts, List.mem_cons] at hf
  rcases hf with rfl | rfl | rfl | rfl | rfl | rfl | rfl | rfl | hf
  · exact h1
  · exact h2
  · exact h3
  · rw [decTextQ_den_one h5]
    exact ⟨decTextI_no_comma _, decTextI_no_newline _⟩
  · exact ⟨decTextI_no_comma _, decTextI_no_newline _⟩
  · exact ⟨decTextI_no_comma _, decTextI_no_newline _⟩
  · exact ⟨decTextI_no_comma _, decTextI_no_newline _⟩
  · exact ⟨decTextI_no_comma _, decTextI_no_newline _⟩
  · simp at hf

/-- C4: the claim says every field of every re-parsed row matches the
computed value as decimal text.  A zero-valued cell is rendered by
`${v || ''}` as the empty string, not `"0"`: for an employee kept in the
report by overtime alone, the `Days Present` field re-parses to the empty
string while the computed value 0 has decimal text `0`. -/
theorem claim4_cex :
    (parseCsvLine (csvLine (pfRowCells smC4 empC4))).getD 3 ['x'] = []
  ∧ decTextQ ((mkPFRow smC4 empC4).presentDays) = ['0']
  ∧ ([] : List Char) ≠ ['0'] := by
  have hcells : pfRowCells smC4 empC4 =
      ["001".data, "A".data, "PF1".data, [], decTextI 60, decTextI 60, decTextI 7,
        decTextI 5, decTextI 2, decTextI 7] := by
    norm_num [pfRowCells, mkPFRow, statQ, toNum, smC4, empC4, statsC4, emptyHookStats,
      earnedBasic, earnedDA, otAmount, jsRound, renderQCell, renderIntCell]
  have hp : (mkPFRow smC4 empC4).presentDays = 0 := by
    norm_num [mkPFRow, statQ, smC4, empC4, statsC4, emptyHookStats]
  refine ⟨?_, ?_, by decide⟩
  · rw [hcells]
    decide
  · rw [hp]
    decide

/-- C4 amended: re-parsing the produced PF or ESI CSV (splitting rows on
newlines, skipping the header, splitting fields on commas and stripping the
double quotes) recovers, for every row and every column, exactly the decimal
text of the computed value — provided every numeric cell of the row is
non-zero (a zero value renders as the empty string under `|| ''`) with an
integral `Days Present`, and the string columns contain no comma or
newline. -/
theorem claim4_amended (emps : List Employee) (sm : String → Option EmployeeAttendanceStats)
    (hpf : ∀ e ∈ employeesWithData emps sm, pfRowClean sm e)
    (hesi : ∀ e ∈ employeesWithData emps sm, esiRowClean sm e) :
    parseCsvRows (pfCsvContent emps sm) =
      (employeesWithData emps sm).map (fun e => pfRowTexts sm e)
  ∧ parseCsvRows (esiCsvContent emps sm) =
      (employeesWithData emps sm).map (fun e => esiRowTexts sm e) := by
  constructor
  · unfold pfCsvContent
    rw [parseCsvRows_csvContent _ _ (by decide) ?hl]
    case hl =>
      intro l hl
      rcases List.mem_map.mp hl with ⟨e, he, rfl⟩
      exact no_newline_csvLine (fun f hf => (pfRowCells_clean sm e (hpf e he) f hf).2)
    rw [List.map_map]
    apply List.map_congr_left
    intro e he
    show parseCsvLine (csvLine (pfRowCells sm e)) = pfRowTexts sm e
    rw [parseCsvLine_csvLine _ (by simp [pfRowCells])
      (fun f hf => (pfRowCells_clean sm e (hpf e he) f hf).1)]
    exact pfRowCells_eq sm e (hpf e he)
  · unfold esiCsvContent
    rw [parseCsvRows_csvContent _ _ (by decide) ?hl]
    case hl =>
      intro l hl
      rcases List.mem_map.mp hl with ⟨e, he, rfl⟩
      exact no_newline_csvLine (fun f hf => (esiRowCells_clean sm e (hesi e he) f hf).2)
    rw [List.map_map]
    apply List.map_congr_left
    intro e he
    show parseCsvLine (csvLine (esiRowCells sm e)) = esiRowTexts sm e
    rw [parseCsvLine_csvLine _ (by simp [esiRowCells])
      (fun f hf => (esiRowCells_clean sm e (hesi e he) f hf).1)]
    exact esiRowCells_eq sm e (hesi e he)

/-- Witness for the amended C4 at a concrete employee whose PF and ESI rows
have all-non-zero cells: both documents re-parse to the decimal texts. -/
theorem claim4_witness :
    parseCsvRows (pfCsvContent [empW4] smW4) =
      (employeesWithData [empW4] smW4).map (fun e => pfRowTexts smW4 e)
  ∧ parseCsvRows (esiCsvContent [empW4] smW4) =
      (employeesWithData [empW4] smW4).map (fun e => esiRowTexts smW4 e) := by
  have hewd : employeesWithData [empW4] smW4 = [empW4] := by decide
  apply claim4_amended
  · intro e he
    rw [hewd] at he
    have he' : e = empW4 := List.mem_singleton.mp he
    subst he'
    refine ⟨⟨by decide, by decide⟩, ⟨by decide, by decide⟩, ⟨by decide, by decide⟩,
        ?_, ?_, ?_, ?_, ?_, ?_, ?_⟩ <;>
      norm_num [mkPFRow, statQ, toNum, smW4, empW4, statsW4, emptyHookStats,
        earnedBasic, earnedDA, otAmount, jsRound]
  · intro e he
    rw [hewd] at he
    have he' : e = empW4 := List.mem_singleton.mp he
    subst he'
    refine ⟨⟨by decide, by decide⟩, ⟨by decide, by decide⟩, ⟨by decide, by decide⟩,
        ?_, ?_, ?_, ?_, ?_, ?_⟩ <;>
      norm_num [mkESIRow, statQ, toNum, smW4, empW4, statsW4, emptyHookStats,
        earnedBasic, earnedDA, otAmount, jsRound]
